import Mathlib

/-!
# Shallow embedding of the TTS playback queue (`usePlaybackQueue`)

This file embeds the playback-queue coordinator of the repository
(the SolidJS hook `usePlaybackQueue`) as a pure transition system.

The JavaScript source is single-threaded and callback driven: every
synchronous block between two `await`s runs to completion.  We model the
module-level mutable state (`PlaybackState` store, `generatingSet`,
`playbackGeneration`, `currentlyPlayingIndex`, `pollInterval`,
`lastAdvanceTime`) as one record `QState`, and every suspended
continuation (a synthesis call in flight, a `setTimeout` retry, an
`await musicPlay`, a registered HTML5 `onended` callback, a poll tick
suspended at `await getMusicState`, a `loadText` awaiting the segmenter)
as a reified `Pending` value stored in the state.  External stimuli
(synthesis responses, promise resolutions, timer fires, clock advance)
arrive as events `Ev`; `step` is the deterministic interpreter of one
event, faithful to the corresponding synchronous block of the source.
-/

namespace SupertonicQueue

/-- Sentence status, exactly the `SentenceStatus` union of the source. -/
inductive Status where
  | pending
  | generating
  | ready
  | playing
  | played
  | error
deriving DecidableEq, Repr

/-- A sentence record.  `hasBuffer` models `audioBuffer !== null`,
`hasFileUrl` models `audioFileUrl` being a non-null string, `errMsg`
models the `error` field. -/
structure Sentence where
  text : String
  status : Status
  hasBuffer : Bool
  hasFileUrl : Bool
  duration : Option Nat
  errMsg : Option String
deriving DecidableEq, Repr

/-- A fresh sentence as built in `loadText` (status `pending`, no audio). -/
def mkSentence (t : String) : Sentence :=
  { text := t, status := .pending, hasBuffer := false, hasFileUrl := false,
    duration := none, errMsg := none }

/-- One `setInterval` created by `startMusicStatePolling`: the generation it
captured, its closure-local `isAdvancing` flag, and whether `clearInterval`
has been called on it. -/
structure PollItv where
  gen : Nat
  isAdvancing : Bool
  cleared : Bool
deriving DecidableEq, Repr

/-- A suspended continuation of the source.

* `synthWait i aw` — `generateSentence i` suspended at
  `await invoke("synthesize_chunk")`; `aw = some (g, k)` when a
  `playSentenceAtIndex` chain with captured generation `g` (and poll-advance
  completion `k`) is awaiting the result, `none` for the fire-and-forget
  calls from `triggerPreGeneration`.
* `retryWait i g k` — `playSentenceAtIndex` suspended at the 100 ms
  `setTimeout` while the sentence is `generating`.
* `musicWait i g k` — `playSentenceAtIndex` suspended at `await musicPlay`.
* `finishCb i g` — the `onended` callback registered by
  `playWithHtml5Audio` via `audioPlayer.playBuffer`.
* `tickWait id g` — a poll tick of interval `id` suspended at
  `await getMusicState()`.
* `loadWait` — `loadText` suspended awaiting `split_text_to_sentences`
  (the preceding `clear_audio_cache` await, whose failure is only logged,
  is collapsed into the same suspension).

`k : Option Nat` is the id of the poll interval whose advance block is
awaiting the chain (`await playSentenceAtIndex(...)` inside the tick);
when the chain finishes, that interval's `isAdvancing` flag is reset. -/
inductive Pending where
  | synthWait (index : Nat) (aw : Option (Nat × Option Nat))
  | retryWait (index gen : Nat) (k : Option Nat)
  | musicWait (index gen : Nat) (k : Option Nat)
  | finishCb (index gen : Nat)
  | tickWait (id gen : Nat)
  | loadWait
deriving DecidableEq, Repr

/-- The whole mutable state of the `usePlaybackQueue` closure. -/
structure QState where
  sentences : List Sentence
  currentIndex : Int
  isPlaying : Bool
  isPaused : Bool
  isLoading : Bool
  queueAhead : Nat
  generatingSet : List Nat
  playbackGeneration : Nat
  currentlyPlayingIndex : Int
  pollInterval : Option Nat
  intervals : List PollItv
  pendings : List Pending
  now : Nat
  lastAdvanceTime : Nat
  isAndroid : Bool
deriving DecidableEq, Repr

/-- The initial closure state (fresh hook with the given platform flag and
`queueAhead`; the source default is 3). -/
def initState (android : Bool) (qa : Nat) : QState :=
  { sentences := [], currentIndex := -1, isPlaying := false, isPaused := false,
    isLoading := false, queueAhead := qa, generatingSet := [],
    playbackGeneration := 0, currentlyPlayingIndex := -1, pollInterval := none,
    intervals := [], pendings := [], now := 0, lastAdvanceTime := 0,
    isAndroid := android }

/-- Set the `isAdvancing` flag of interval `id`. -/
def setAdvancing (id : Nat) (b : Bool) (s : QState) : QState :=
  match s.intervals[id]? with
  | none => s
  | some itv => { s with intervals := s.intervals.set id { itv with isAdvancing := b } }

/-- Model of `clearInterval` on interval `id`: no further ticks start. -/
def clearItv (id : Nat) (s : QState) : QState :=
  match s.intervals[id]? with
  | none => s
  | some itv => { s with intervals := s.intervals.set id { itv with cleared := true } }

/-- Completion of a `playSentenceAtIndex` chain that a poll-advance block was
awaiting: reset that interval's `isAdvancing` flag. -/
def complete (k : Option Nat) (s : QState) : QState :=
  match k with
  | none => s
  | some id => setAdvancing id false s

/-- Overwrite the status of sentence `i` (a `setState("sentences", i, "status", st)`). -/
def setStatusAt (i : Nat) (st : Status) (s : QState) : QState :=
  match s.sentences[i]? with
  | none => s
  | some sn => { s with sentences := s.sentences.set i { sn with status := st } }

/-- Status write through a possibly-negative index (`state.currentIndex` can
be `-1`; Solid's `setState` on a non-existent array index mutates nothing
observable, modelled as a no-op). -/
def setStatusInt (i : Int) (st : Status) (s : QState) : QState :=
  if 0 ≤ i then setStatusAt i.toNat st s else s

/-- The call `audioPlayer.playBuffer` installs `audio.onended` on the single shared
audio element, replacing any previously registered callback; and
`audioPlayer.stop()` (in `stopPlayback` / `skipTo`) sets `audio.onended = null`.
Both therefore cancel any pending HTML5 finish callback. -/
def dropFinishCbs (l : List Pending) : List Pending :=
  l.filter (fun p => match p with | .finishCb _ _ => false | _ => true)

/-- The synchronous prefix of `generateSentence(index)`: bounds check,
in-flight check, status check; if the sentence is `pending`, add it to
`generatingSet`, mark it `generating` and issue the synthesis request
(suspending at the `invoke` await).  Returns the state together with
whether a request was issued.

`aw` records the awaiting `playSentenceAtIndex` chain if the call came from
one (the chain resumes when the synthesis completion has been processed). -/
def generateSentenceStart (index : Nat) (aw : Option (Nat × Option Nat))
    (s : QState) : QState × Bool :=
  if index ≥ s.sentences.length then (s, false)
  else if index ∈ s.generatingSet then (s, false)
  else
    match s.sentences[index]? with
    | none => (s, false)
    | some sn =>
      if sn.status ≠ .pending then (s, false)
      else
        let s1 := { s with generatingSet := index :: s.generatingSet }
        let s2 := { s1 with sentences := s1.sentences.set index { sn with status := .generating } }
        ({ s2 with pendings := s2.pendings ++ [.synthWait index aw] }, true)

/-- The loop body of `triggerPreGeneration`: scan `cnt` indices starting at
`i`, calling `generateSentence` for every sentence that is `pending` and not
in flight.  Returns the state and the number of synthesis requests issued. -/
def triggerLoop : Nat → Nat → QState → QState × Nat
  | 0, _, s => (s, 0)
  | cnt + 1, i, s =>
    let go : QState × Bool :=
      match s.sentences[i]? with
      | some sn =>
        if sn.status = .pending ∧ i ∉ s.generatingSet
        then generateSentenceStart i none s
        else (s, false)
      | none => (s, false)
    let rest := triggerLoop cnt (i + 1) go.1
    (rest.1, (if go.2 then 1 else 0) + rest.2)

/-- Model of `triggerPreGeneration(fromIndex)`: scan
`[fromIndex, min(fromIndex + queueAhead + 1, sentences.length))`. -/
def triggerPreGeneration (fromIndex : Nat) (s : QState) : QState × Nat :=
  triggerLoop (min (fromIndex + s.queueAhead + 1) s.sentences.length - fromIndex) fromIndex s

/-- Model of `playWithHtml5Audio(index, generation)`: if the sentence has a decoded
buffer, start the shared audio element (replacing any previous `onended`
callback) and register the finish callback with the captured generation. -/
def playWithHtml5Audio (index gen : Nat) (s : QState) : QState :=
  match s.sentences[index]? with
  | none => s
  | some sn =>
    if sn.hasBuffer
    then { s with pendings := dropFinishCbs s.pendings ++ [.finishCb index gen] }
    else s

/-- Model of `startMusicStatePolling(generation)`: clear the interval currently held
by the `pollInterval` variable, then install a fresh interval capturing
`generation`, with its own `isAdvancing` closure flag. -/
def startMusicStatePolling (g : Nat) (s : QState) : QState :=
  let s1 :=
    match s.pollInterval with
    | some id => clearItv id s
    | none => s
  { s1 with intervals := s1.intervals ++ [{ gen := g, isAdvancing := false, cleared := false }],
            pollInterval := some s1.intervals.length }

/-- Model of `playSentenceAtIndex(index, generation)`, run to its next suspension
point.  The fuel bounds the synchronous recursion (the error-skip walk and
the degenerate `pending`-while-in-flight loop); callers pass
`sentences.length + 1`, which is more than the error-skip walk can use.
`k` is the poll-advance interval awaiting the chain, if any. -/
def playSentenceAtIndex : Nat → Nat → Nat → Option Nat → QState → QState
  | 0, _, _, k, s => complete k s
  | fuel + 1, index, gen, k, s =>
    if gen ≠ s.playbackGeneration then complete k s
    else if index ≥ s.sentences.length then complete k s
    else if ¬s.isPlaying ∨ s.isPaused then complete k s
    else if s.currentlyPlayingIndex = (index : Int) then complete k s
    else
      match s.sentences[index]? with
      | none => complete k s
      | some sn =>
        match sn.status with
        | .pending =>
          if index ∈ s.generatingSet then
            -- `await generateSentence(index)` resolves `false` synchronously;
            -- the generation is unchanged, so the source re-enters at once
            playSentenceAtIndex fuel index gen k s
          else (generateSentenceStart index (some (gen, k)) s).1
        | .generating =>
          { s with pendings := s.pendings ++ [.retryWait index gen k] }
        | .error =>
          if index + 1 < s.sentences.length then
            playSentenceAtIndex fuel (index + 1) gen k
              { s with currentIndex := ((index + 1 : Nat) : Int) }
          else complete k { s with isPlaying := false }
        | .ready =>
          let s1 := { s with currentlyPlayingIndex := (index : Int) }
          let s2 := { s1 with sentences := s1.sentences.set index { sn with status := .playing } }
          let s3 := (triggerPreGeneration index s2).1
          if s3.isAndroid ∧ sn.hasFileUrl then
            { s3 with pendings := s3.pendings ++ [.musicWait index gen k] }
          else complete k (playWithHtml5Audio index gen s3)
        | .playing => complete k s
        | .played => complete k s

/-- Model of `stopPlayback()`: bump the generation, reset `currentlyPlayingIndex`,
tear down the poll interval, stop both backends (which cancels any pending
HTML5 finish callback), clear transport state, and reset every `playing` or
`played` sentence to `ready` (cached audio) or `pending`. -/
def resetSentence (sn : Sentence) : Sentence :=
  if sn.status = .playing ∨ sn.status = .played
  then { sn with status := if sn.hasBuffer then .ready else .pending }
  else sn

def stopPlayback (s : QState) : QState :=
  let s1 := { s with playbackGeneration := s.playbackGeneration + 1,
                     currentlyPlayingIndex := -1 }
  let s2 :=
    match s1.pollInterval with
    | some id =>
      let c := clearItv id s1
      { c with pollInterval := none }
    | none => s1
  { s2 with isPlaying := false, isPaused := false, currentIndex := -1,
            sentences := s2.sentences.map resetSentence,
            pendings := dropFinishCbs s2.pendings }

/-- Model of `stop()`, which just delegates to `stopPlayback()`. -/
def stop (s : QState) : QState := stopPlayback s

/-- Model of `play()`. -/
def play (s : QState) : QState :=
  if s.sentences.length = 0 then s
  else if s.isPaused then
    let s1 := { s with isPaused := false }
    if s1.isAndroid then startMusicStatePolling s1.playbackGeneration s1 else s1
  else
    let startIndex : Nat := if s.currentIndex < 0 then 0 else s.currentIndex.toNat
    let s1 := { s with playbackGeneration := s.playbackGeneration + 1 }
    let s2 := { s1 with isPlaying := true, isPaused := false,
                        currentIndex := (startIndex : Int) }
    playSentenceAtIndex (s2.sentences.length + 1) startIndex s2.playbackGeneration none s2

/-- Model of `pause()`: set `isPaused` unconditionally; on Android additionally stop
the poll interval's ticks (the `pollInterval` variable itself is kept). -/
def pause (s : QState) : QState :=
  let s1 := { s with isPaused := true }
  if s1.isAndroid then
    match s1.pollInterval with
    | some id => clearItv id s1
    | none => s1
  else s1

/-- The backend-teardown prefix of `skipTo` (after the bounds check):
increment the token, reset `currentlyPlayingIndex`, clear the poll
interval, and stop both backends (`audioPlayer.stop()` cancels the
registered `onended` callback). -/
def skipToStopBackend (s : QState) : QState :=
  let s1 := { s with playbackGeneration := s.playbackGeneration + 1,
                     currentlyPlayingIndex := -1 }
  let s2 :=
    match s1.pollInterval with
    | some id =>
      let c := clearItv id s1
      { c with pollInterval := none }
    | none => s1
  { s2 with pendings := dropFinishCbs s2.pendings }

/-- The remainder of `skipTo`: reset the previous sentence's status if it
is `playing`, set the new index, and dispatch play-at-index when playing
and not paused. -/
def skipToRest (i : Int) (x : QState) : QState :=
  let prev := x.currentIndex
  let s4 :=
    if 0 ≤ prev ∧ prev < (x.sentences.length : Int) then
      match x.sentences[prev.toNat]? with
      | some sn =>
        if sn.status = .playing then
          { x with sentences := (x.sentences.set prev.toNat
              { sn with status := if sn.hasBuffer then .ready else .pending }) }
        else x
      | none => x
    else x
  let s5 := { s4 with currentIndex := i }
  if s5.isPlaying ∧ ¬s5.isPaused then
    playSentenceAtIndex (s5.sentences.length + 1) i.toNat s5.playbackGeneration none s5
  else s5

/-- Model of `skipTo(index)`. -/
def skipTo (i : Int) (s : QState) : QState :=
  if i < 0 ∨ (s.sentences.length : Int) ≤ i then s
  else skipToRest i (skipToStopBackend s)

/-- The continuation of `generateSentence` once the synthesis response has
arrived (and, on success, the audio has been saved/decoded): write the
sentence's fields and remove the index from `generatingSet`.
Note: the source performs these writes without any generation-token check. -/
def finishGeneration (index : Nat) (success fileOk : Bool) (dur : Nat)
    (msg : String) (s : QState) : QState :=
  let s1 :=
    match s.sentences[index]? with
    | none => s
    | some sn =>
      if success then
        { s with sentences := (s.sentences.set index
            { sn with status := .ready, hasBuffer := true,
                      hasFileUrl := s.isAndroid && fileOk,
                      duration := some dur, errMsg := none }) }
      else
        { s with sentences := (s.sentences.set index
            { sn with status := .error, errMsg := some msg }) }
  { s1 with generatingSet := s1.generatingSet.filter (fun j => j != index) }

/-- The `!text.trim()` emptiness test guarding `loadText`: a JS string
trims to the empty string exactly when every character is whitespace. -/
def trimEmpty (t : String) : Bool := t.data.all (fun c => c.isWhitespace)

/-- Remove the first pending continuation matched by `f`. -/
def removeFirst {α : Type} (f : Pending → Option α) :
    List Pending → Option (α × List Pending)
  | [] => none
  | p :: rest =>
    match f p with
    | some a => some (a, rest)
    | none =>
      match removeFirst f rest with
      | some (a, l) => some (a, p :: l)
      | none => none

/-- External stimuli: user operations and resolutions of suspended work.

* `loadStart t` — a call `loadText(t)` (its synchronous prefix).
* `segmentDone r` — the segmenter resolves (`none` = it threw).
* `synthDone i ok fileOk dur msg` — the synthesis request for sentence `i`
  settles (`ok` with saved-file success `fileOk` and duration `dur`, or a
  failure message `msg`).
* `musicPlayDone i ok` — the `musicPlay` promise for sentence `i` settles.
* `retryFire i g` — the 100 ms retry timer fires.
* `htmlFinish i g` — the HTML5 `onended` callback fires.
* `tickStart id` — the poll interval `id` fires a tick.
* `musicStateRes id playing` — `getMusicState()` resolves for the suspended
  tick of interval `id`.
* `timePass d` — the wall clock advances by `d` ms. -/
inductive Ev where
  | loadStart (t : String)
  | segmentDone (r : Option (List String))
  | playEv
  | pauseEv
  | stopEv
  | skipToEv (i : Int)
  | synthDone (i : Nat) (ok fileOk : Bool) (dur : Nat) (msg : String)
  | musicPlayDone (i : Nat) (ok : Bool)
  | retryFire (i g : Nat)
  | htmlFinish (i g : Nat)
  | tickStart (id : Nat)
  | musicStateRes (id : Nat) (playing : Bool)
  | timePass (d : Nat)
deriving DecidableEq, Repr

/-- Fuel for a `playSentenceAtIndex` entry. -/
def fuelOf (s : QState) : Nat := s.sentences.length + 1

/-- One synchronous block of the source, triggered by event `e`. -/
def step (s : QState) (e : Ev) : QState :=
  match e with
  | .loadStart t =>
    if trimEmpty t then s
    else
      let s1 := { s with isLoading := true }
      let s2 := stopPlayback s1
      let s3 := { s2 with generatingSet := [] }
      let s4 := { s3 with playbackGeneration := s3.playbackGeneration + 1 }
      { s4 with pendings := s4.pendings ++ [.loadWait] }
  | .segmentDone r =>
    match removeFirst (fun p => match p with | .loadWait => some () | _ => none) s.pendings with
    | none => s
    | some (_, rest) =>
      let s1 := { s with pendings := rest }
      match r with
      | some texts =>
        { s1 with sentences := texts.map mkSentence, currentIndex := -1,
                  isPlaying := false, isPaused := false, isLoading := false }
      | none => { s1 with isLoading := false }
  | .playEv => play s
  | .pauseEv => pause s
  | .stopEv => stop s
  | .skipToEv i => skipTo i s
  | .synthDone i ok fileOk dur msg =>
    match removeFirst (fun p => match p with
        | .synthWait j aw => if j = i then some aw else none
        | _ => none) s.pendings with
    | none => s
    | some (aw, rest) =>
      let s1 := finishGeneration i ok fileOk dur msg { s with pendings := rest }
      match aw with
      | none => s1
      | some (g, k) =>
        -- the awaiting chain resumes: `if (generation !== playbackGeneration) return;`
        if g ≠ s1.playbackGeneration then complete k s1
        else playSentenceAtIndex (fuelOf s1) i g k s1
  | .musicPlayDone i ok =>
    match removeFirst (fun p => match p with
        | .musicWait j g k => if j = i then some (g, k) else none
        | _ => none) s.pendings with
    | none => s
    | some ((g, k), rest) =>
      let s1 := { s with pendings := rest }
      -- note: the source does not re-check the generation here
      if ok then complete k (startMusicStatePolling g s1)
      else complete k (playWithHtml5Audio i g s1)
  | .retryFire i g =>
    match removeFirst (fun p => match p with
        | .retryWait j g' k => if j = i ∧ g' = g then some k else none
        | _ => none) s.pendings with
    | none => s
    | some (k, rest) =>
      let s1 := { s with pendings := rest }
      if g ≠ s1.playbackGeneration then complete k s1
      else playSentenceAtIndex (fuelOf s1) i g k s1
  | .htmlFinish i g =>
    match removeFirst (fun p => match p with
        | .finishCb j g' => if j = i ∧ g' = g then some () else none
        | _ => none) s.pendings with
    | none => s
    | some (_, rest) =>
      let s1 := { s with pendings := rest }
      if g ≠ s1.playbackGeneration then s1
      else
        let s2 := setStatusAt i .played s1
        let next := i + 1
        if next < s2.sentences.length ∧ s2.isPlaying ∧ ¬s2.isPaused then
          playSentenceAtIndex (fuelOf s2) next g none
            { s2 with currentIndex := (next : Int) }
        else if s2.sentences.length ≤ next then
          { s2 with isPlaying := false, currentIndex := -1 }
        else s2
  | .tickStart id =>
    match s.intervals[id]? with
    | none => s
    | some itv =>
      if itv.cleared then s
      else if itv.gen ≠ s.playbackGeneration then
        -- `if (pollInterval) clearInterval(pollInterval)`: the tick clears
        -- whatever interval the variable currently holds
        match s.pollInterval with
        | some j => clearItv j s
        | none => s
      else if itv.isAdvancing then s
      else { s with pendings := s.pendings ++ [.tickWait id itv.gen] }
  | .musicStateRes id playing =>
    match removeFirst (fun p => match p with
        | .tickWait j g => if j = id then some g else none
        | _ => none) s.pendings with
    | none => s
    | some (g, rest) =>
      let s1 := { s with pendings := rest }
      -- note: the generation captured by the interval is NOT re-checked here
      if ¬playing ∧ s1.isPlaying ∧ ¬s1.isPaused then
        if s1.now - s1.lastAdvanceTime < 300 then s1
        else
          let s2 := setAdvancing id true { s1 with lastAdvanceTime := s1.now }
          let next := s2.currentIndex + 1
          if next < (s2.sentences.length : Int) then
            let s3 := setStatusInt s2.currentIndex .played s2
            let s4 := { s3 with currentIndex := next }
            playSentenceAtIndex (fuelOf s4) next.toNat g (some id) s4
          else
            let s3 := setStatusInt s2.currentIndex .played s2
            let s4 := { s3 with isPlaying := false, currentIndex := -1 }
            let s5 :=
              match s4.pollInterval with
              | some j => clearItv j s4
              | none => s4
            setAdvancing id false s5
      else s1
  | .timePass d => { s with now := s.now + d }

/-- Run a sequence of events. -/
def run (s : QState) (es : List Ev) : QState := es.foldl step s

/-! ## Field-preservation lemmas

The backend-control helpers (`setAdvancing`, `clearItv`, `complete`,
`startMusicStatePolling`, `playWithHtml5Audio`) and the play chain never
touch the generation token; these lemmas record that, together with a few
other fields they leave alone. -/

theorem setAdvancing_playbackGeneration (id : Nat) (b : Bool) (s : QState) :
    (setAdvancing id b s).playbackGeneration = s.playbackGeneration := by
  unfold setAdvancing; split <;> rfl

theorem clearItv_playbackGeneration (id : Nat) (s : QState) :
    (clearItv id s).playbackGeneration = s.playbackGeneration := by
  unfold clearItv; split <;> rfl

theorem complete_playbackGeneration (k : Option Nat) (s : QState) :
    (complete k s).playbackGeneration = s.playbackGeneration := by
  cases k <;> simp [complete, setAdvancing_playbackGeneration]

theorem generateSentenceStart_playbackGeneration (i : Nat)
    (aw : Option (Nat × Option Nat)) (s : QState) :
    ((generateSentenceStart i aw s).1).playbackGeneration = s.playbackGeneration := by
  unfold generateSentenceStart
  repeat' split
  all_goals rfl

theorem triggerLoop_playbackGeneration : ∀ (cnt i : Nat) (s : QState),
    ((triggerLoop cnt i s).1).playbackGeneration = s.playbackGeneration
  | 0, _, _ => rfl
  | cnt + 1, i, s => by
    unfold triggerLoop
    dsimp only
    rw [triggerLoop_playbackGeneration cnt]
    split
    · split
      · exact generateSentenceStart_playbackGeneration ..
      · rfl
    · rfl

theorem triggerPreGeneration_playbackGeneration (i : Nat) (s : QState) :
    ((triggerPreGeneration i s).1).playbackGeneration = s.playbackGeneration :=
  triggerLoop_playbackGeneration ..

theorem playWithHtml5Audio_playbackGeneration (i g : Nat) (s : QState) :
    (playWithHtml5Audio i g s).playbackGeneration = s.playbackGeneration := by
  unfold playWithHtml5Audio
  repeat' split
  all_goals rfl

theorem playSentenceAtIndex_playbackGeneration :
    ∀ (fuel i g : Nat) (k : Option Nat) (s : QState),
      (playSentenceAtIndex fuel i g k s).playbackGeneration = s.playbackGeneration
  | 0, _, _, k, s => complete_playbackGeneration k s
  | fuel + 1, i, g, k, s => by
    unfold playSentenceAtIndex
    repeat' split
    all_goals
      simp [apply_ite QState.playbackGeneration, complete_playbackGeneration,
        generateSentenceStart_playbackGeneration, playWithHtml5Audio_playbackGeneration,
        triggerPreGeneration_playbackGeneration, playSentenceAtIndex_playbackGeneration fuel]

theorem stop_playbackGeneration (s : QState) :
    (stop s).playbackGeneration = s.playbackGeneration + 1 := by
  unfold stop stopPlayback
  dsimp only
  split <;> simp [clearItv_playbackGeneration]

theorem skipToRest_playbackGeneration (i : Int) (x : QState) :
    (skipToRest i x).playbackGeneration = x.playbackGeneration := by
  unfold skipToRest
  dsimp only
  repeat' split
  all_goals simp [playSentenceAtIndex_playbackGeneration]

theorem skipToStopBackend_playbackGeneration (s : QState) :
    (skipToStopBackend s).playbackGeneration = s.playbackGeneration + 1 := by
  unfold skipToStopBackend
  dsimp only
  split <;> simp [clearItv_playbackGeneration]

theorem skipTo_playbackGeneration (s : QState) (i : Int)
    (h : ¬(i < 0 ∨ (s.sentences.length : Int) ≤ i)) :
    (skipTo i s).playbackGeneration = s.playbackGeneration + 1 := by
  unfold skipTo
  rw [if_neg h, skipToRest_playbackGeneration, skipToStopBackend_playbackGeneration]

theorem play_playbackGeneration (s : QState)
    (hne : s.sentences.length ≠ 0) (hp : s.isPaused = false) :
    (play s).playbackGeneration = s.playbackGeneration + 1 := by
  unfold play
  rw [if_neg hne, hp]
  simp [playSentenceAtIndex_playbackGeneration]

theorem loadStart_playbackGeneration (s : QState) (t : String)
    (h : trimEmpty t = false) :
    (step s (Ev.loadStart t)).playbackGeneration = s.playbackGeneration + 2 := by
  simp only [step]
  rw [if_neg (by simp [h])]
  dsimp only
  unfold stopPlayback
  dsimp only
  split <;> simp [clearItv_playbackGeneration]

/-! ## Claim C1

The spec demands that every asynchronous continuation that captured the
token before a token-incrementing call performs no `PlaybackState`
mutation once resumed, naming in particular the synthesis-completion
continuation inside `generateSentence`.  That continuation, however,
performs its writes without any token check: below, a one-sentence text is
loaded and played (issuing a synthesis request that captures generation 3),
`stop()` advances the token to 4, and the synthesis completion still
rewrites the sentence's status (`generating` to `ready`), audio and error
fields. -/

/-- The execution exhibiting C1's failure: load one sentence, `play()`
(the play chain issues a synthesis request), `stop()` (token bump), then
the synthesis result arrives. -/
def c1Events : List Ev :=
  [.loadStart "a", .segmentDone (some ["a"]), .playEv, .stopEv]

/-- C1: after `stop()` has advanced the token to 4, the synthesis request in
flight (which was issued under generation 3) still mutates the sentence on
arrival: status `generating` becomes `ready` and the audio fields are
written, although the claim requires such a stale continuation to perform
no mutation. -/
theorem c1_generateSentence_writes_after_token_advance :
    (run (initState false 3) c1Events).playbackGeneration = 4
    ∧ (run (initState false 3) c1Events).pendings
        = [Pending.synthWait 0 (some (3, none))]
    ∧ (run (initState false 3) c1Events).sentences.map (fun sn => sn.status)
        = [Status.generating]
    ∧ (step (run (initState false 3) c1Events)
        (Ev.synthDone 0 true true 5 "")).sentences.map (fun sn => sn.status)
        = [Status.ready]
    ∧ (step (run (initState false 3) c1Events)
        (Ev.synthDone 0 true true 5 "")).sentences.map (fun sn => sn.hasBuffer)
        = [true] := by
  decide

/-! ## Claim C2

The claim asserts that `play()` strictly increases the token in every
state, including `Paused`.  But `play()` from a paused state takes the
resume branch and leaves the token untouched (as the spec itself says
elsewhere).  The amended statement: `stop()` always increments; `skipTo`
increments for every in-bounds index; `play()` increments when the queue
is non-empty and not paused; `loadText` increments for text with non-empty
trim (twice, via its embedded stop). -/

/-- A reachable paused state: load one sentence, `play()` (the token is now
3, the sentence is generating), `pause()`. -/
def c2Events : List Ev :=
  [.loadStart "a", .segmentDone (some ["a"]), .playEv, .pauseEv]

/-- C2 counterexample: calling `play()` in the paused state leaves the
generation token unchanged (the resume branch performs no increment),
refuting "every call to play() strictly increases the token regardless of
the state". -/
theorem c2_play_while_paused_keeps_token :
    (run (initState false 3) c2Events).isPaused = true
    ∧ (step (run (initState false 3) c2Events) Ev.playEv).playbackGeneration
        = (run (initState false 3) c2Events).playbackGeneration := by
  decide

/-- C2 amended: `stop()` strictly increases the token from every state;
`skipTo(i)` does so for every in-bounds `i`; `play()` does so whenever the
sentence list is non-empty and playback is not paused; `loadText(t)` does
so for every `t` with non-empty trim. -/
theorem c2_token_increment_amended (s : QState) :
    s.playbackGeneration < (stop s).playbackGeneration
    ∧ (∀ i : Int, 0 ≤ i → i < (s.sentences.length : Int) →
        s.playbackGeneration < (skipTo i s).playbackGeneration)
    ∧ (s.sentences.length ≠ 0 → s.isPaused = false →
        s.playbackGeneration < (play s).playbackGeneration)
    ∧ (∀ t : String, trimEmpty t = false →
        s.playbackGeneration < (step s (Ev.loadStart t)).playbackGeneration) := by
  refine ⟨?_, ?_, ?_, ?_⟩
  · rw [stop_playbackGeneration]; omega
  · intro i h1 h2
    rw [skipTo_playbackGeneration s i (by omega)]; omega
  · intro h1 h2
    rw [play_playbackGeneration s h1 h2]; omega
  · intro t ht
    rw [loadStart_playbackGeneration s t ht]; omega

/-- Witness for the amended C2, discharged on a concrete one-sentence state. -/
theorem c2_token_increment_amended_witness :
    ((run (initState false 3) c2Events).playbackGeneration
        < (stop (run (initState false 3) c2Events)).playbackGeneration)
    ∧ ((run (initState false 3) c2Events).playbackGeneration
        < (skipTo 0 (run (initState false 3) c2Events)).playbackGeneration)
    ∧ ((run (initState false 3) c2Events).playbackGeneration
        < (play { run (initState false 3) c2Events with isPaused := false }).playbackGeneration)
    ∧ ((run (initState false 3) c2Events).playbackGeneration
        < (step (run (initState false 3) c2Events)
            (Ev.loadStart "b")).playbackGeneration) := by
  refine ⟨(c2_token_increment_amended _).1,
    (c2_token_increment_amended _).2.1 0 (by decide) (by decide), ?_, ?_⟩
  · have h := (c2_token_increment_amended
      { run (initState false 3) c2Events with isPaused := false }).2.2.1
      (by decide) (by decide)
    simpa using h
  · exact (c2_token_increment_amended _).2.2.2 "b" (by decide)

/-! ## Claim C3

The claim: at every reachable instant of any interleaving, at most one
sentence has status `playing`.  The execution below refutes it on the
code.  On Android, sentence 0 plays through the external media session and
the poll interval it starts is never cleared when the advance at sentence 1
falls back to HTML5 audio (sentence 1's audio file failed to persist).
The still-live poll interval then advances past sentence 1 while its HTML5
audio is still audible, and again to sentence 3.  When sentence 1's
`onended` callback finally fires, it rewinds `currentIndex` to 2 while
sentence 3 is still `playing`.  A `skipTo(4)` then resets nothing (the
sentence at `currentIndex = 2` is `played`, and only `playing` is reset)
and marks sentence 4 `playing` — two sentences are now `playing`. -/

/-- The interleaving exhibiting C3's failure (Android; sentence 1's audio
file save fails, so it plays via HTML5 audio while sentences 0, 2, 3 use
the media-session backend). -/
def c3Events : List Ev :=
  [ .loadStart "a", .segmentDone (some ["a", "b", "c", "d", "e", "f"]), .playEv
  , .synthDone 0 true true 5 "", .musicPlayDone 0 true
  , .synthDone 1 true false 5 "", .synthDone 2 true true 5 "", .synthDone 3 true true 5 ""
  , .timePass 1000, .tickStart 0, .musicStateRes 0 false
  , .synthDone 4 true true 5 ""
  , .timePass 1000, .tickStart 0, .musicStateRes 0 false
  , .musicPlayDone 2 true
  , .synthDone 5 true true 5 ""
  , .timePass 1000, .tickStart 1, .musicStateRes 1 false
  , .musicPlayDone 3 true
  , .htmlFinish 1 3
  , .skipToEv 4 ]

/-- C3: after the interleaving above, sentences 3 and 4 are both `playing`
simultaneously — the "at most one `playing`" invariant fails on the code. -/
theorem c3_two_sentences_playing :
    (run (initState true 3) c3Events).sentences.map (fun sn => sn.status)
      = [Status.played, Status.played, Status.played,
         Status.playing, Status.playing, Status.ready]
    ∧ ((run (initState true 3) c3Events).sentences.filter
        (fun sn => decide (sn.status = Status.playing))).length = 2 := by
  decide

/-! ## Frame lemmas: which fields each helper touches -/

theorem clearItv_frame (id : Nat) (s : QState) :
    clearItv id s = { s with intervals := (clearItv id s).intervals } := by
  unfold clearItv; split <;> rfl

theorem setAdvancing_frame (id : Nat) (b : Bool) (s : QState) :
    setAdvancing id b s = { s with intervals := (setAdvancing id b s).intervals } := by
  unfold setAdvancing; split <;> rfl

theorem complete_frame (k : Option Nat) (s : QState) :
    complete k s = { s with intervals := (complete k s).intervals } := by
  cases k with
  | none => rfl
  | some id => exact setAdvancing_frame id false s

theorem startMusicStatePolling_frame (g : Nat) (s : QState) :
    startMusicStatePolling g s =
      { s with intervals := (startMusicStatePolling g s).intervals,
               pollInterval := (startMusicStatePolling g s).pollInterval } := by
  unfold startMusicStatePolling
  split
  next id heq => rw [clearItv_frame]
  next => rfl

theorem playWithHtml5Audio_frame (i g : Nat) (s : QState) :
    playWithHtml5Audio i g s =
      { s with pendings := (playWithHtml5Audio i g s).pendings } := by
  unfold playWithHtml5Audio
  repeat' split
  all_goals rfl

/-- The whole effect of `stop()` on every field other than `intervals`
(the cleared interval depends on which one was live). -/
theorem stop_frame (s : QState) :
    stop s = { s with
      playbackGeneration := s.playbackGeneration + 1,
      currentlyPlayingIndex := -1,
      pollInterval := none,
      intervals := (stop s).intervals,
      isPlaying := false, isPaused := false, currentIndex := -1,
      sentences := s.sentences.map resetSentence,
      pendings := dropFinishCbs s.pendings } := by
  unfold stop stopPlayback
  dsimp only
  split
  next id heq =>
    unfold clearItv
    split <;> rfl
  next heq => rw [heq]

theorem stop_intervals_of_pollInterval_none (s : QState) (h : s.pollInterval = none) :
    (stop s).intervals = s.intervals := by
  unfold stop stopPlayback
  dsimp only
  rw [h]

/-! ## Idempotence helpers -/

theorem resetSentence_idem (sn : Sentence) :
    resetSentence (resetSentence sn) = resetSentence sn := by
  rcases sn with ⟨t, st, hb, hf, d, e⟩
  cases st <;> cases hb <;> simp [resetSentence]

theorem map_resetSentence_idem (l : List Sentence) :
    (l.map resetSentence).map resetSentence = l.map resetSentence := by
  rw [List.map_map]
  exact List.map_congr_left (fun a _ => resetSentence_idem a)

theorem dropFinishCbs_idem (l : List Pending) :
    dropFinishCbs (dropFinishCbs l) = dropFinishCbs l := by
  simp [dropFinishCbs, List.filter_filter]

theorem resetSentence_status_ne_playing (sn : Sentence) :
    (resetSentence sn).status ≠ Status.playing := by
  rcases sn with ⟨t, st, hb, hf, d, e⟩
  cases st <;> cases hb <;> simp [resetSentence]

/-! ## Claim C4

`stop()` (via `stopPlayback`) does exactly what the claim says: transport
reset, no `playing` sentence left, and the per-sentence reset rule applied
pointwise while all other sentences are untouched.  Confirmed. -/

/-- C4: after `stop()`, `currentIndex = -1`, playback and pause flags are
cleared, no sentence is `playing`, and each sentence that was `playing` or
`played` is reset to `ready` when it holds decoded audio and `pending`
otherwise, every other sentence being returned unchanged. -/
theorem c4_stop_postconditions (s : QState) :
    (stop s).currentIndex = -1
    ∧ (stop s).isPlaying = false
    ∧ (stop s).isPaused = false
    ∧ (∀ t ∈ (stop s).sentences, t.status ≠ Status.playing)
    ∧ ∀ i : Nat, ∀ sn : Sentence, s.sentences[i]? = some sn →
        (stop s).sentences[i]? = some (
          if sn.status = Status.playing ∨ sn.status = Status.played
          then { sn with status := if sn.hasBuffer then Status.ready else Status.pending }
          else sn) := by
  rw [stop_frame]
  refine ⟨rfl, rfl, rfl, ?_, ?_⟩
  · intro t ht
    simp only [List.mem_map] at ht
    obtain ⟨x, -, rfl⟩ := ht
    exact resetSentence_status_ne_playing x
  · intro i sn h
    simp [List.getElem?_map, h, resetSentence]

/-- Witness for C4 at a concrete state holding a `playing` sentence with
cached audio. -/
theorem c4_stop_postconditions_witness :
    ((stop (run (initState true 3) c3Events)).currentIndex = -1
    ∧ (stop (run (initState true 3) c3Events)).isPlaying = false
    ∧ (stop (run (initState true 3) c3Events)).isPaused = false
    ∧ (∀ t ∈ (stop (run (initState true 3) c3Events)).sentences,
        t.status ≠ Status.playing))
    ∧ (stop (run (initState true 3) c3Events)).sentences.map (fun sn => sn.status)
        = [Status.ready, Status.ready, Status.ready,
           Status.ready, Status.ready, Status.ready] := by
  have h := c4_stop_postconditions (run (initState true 3) c3Events)
  exact ⟨⟨h.1, h.2.1, h.2.2.1, h.2.2.2.1⟩, by decide⟩

/-! ## Claim C9

The claim says a second `stop()` "changes nothing".  It does raise no
error and leaves the entire observable `PlaybackState` unchanged, but the
generation token is incremented again (as required by the token-monotonicity
property), so the state is not literally equal.  Amended: calling `stop()`
twice equals calling it once on every field except `playbackGeneration`,
which the second call increments once more. -/

/-- C9 counterexample: after a second `stop()` the state differs from the
state after the first — the generation token has advanced again. -/
theorem c9_second_stop_changes_token :
    (stop (stop (initState false 3))).playbackGeneration
      ≠ (stop (initState false 3)).playbackGeneration
    ∧ stop (stop (initState false 3)) ≠ stop (initState false 3) := by
  decide

/-- C9 amended: a second `stop()` is the identity on every field except the
generation token, which it increments once more. -/
theorem c9_stop_idempotent_on_playback_state (s : QState) :
    stop (stop s) =
      (let s1 := stop s
       { s1 with playbackGeneration := s1.playbackGeneration + 1 }) := by
  have hpoll : (stop s).pollInterval = none := by rw [stop_frame]
  have hint : (stop (stop s)).intervals = (stop s).intervals :=
    stop_intervals_of_pollInterval_none _ hpoll
  rw [stop_frame (stop s)]
  rw [hint]
  have h1 : (stop s).currentlyPlayingIndex = -1 := by rw [stop_frame]
  have h3 : (stop s).isPlaying = false := by rw [stop_frame]
  have h4 : (stop s).isPaused = false := by rw [stop_frame]
  have h5 : (stop s).currentIndex = -1 := by rw [stop_frame]
  have h6 : (stop s).sentences.map resetSentence = (stop s).sentences := by
    conv_rhs => rw [stop_frame]
    rw [stop_frame]
    exact map_resetSentence_idem s.sentences
  have h7 : dropFinishCbs (stop s).pendings = (stop s).pendings := by
    conv_rhs => rw [stop_frame]
    rw [stop_frame]
    exact dropFinishCbs_idem s.pendings
  generalize stop s = x at *
  cases x
  simp_all

/-! ## Claim C5

The claim says `skipTo` resets the previous sentence "the same way as
`stop()`'s per-sentence reset", i.e. for status `playing` *or* `played`.
But the source only resets the previous sentence when its status is
exactly `playing` (`if (prevStatus === 'playing')`); a `played` previous
sentence is left untouched.  The trace below reaches a `played` previous
sentence (playback of sentence 0 finished while paused) and `skipTo(1)`
leaves it `played` where the claim requires `ready`. -/

/-- The execution exhibiting C5's failure: load two sentences, `play()`,
synthesis of sentence 0 completes (it starts playing via HTML5 audio),
`pause()`, the `onended` callback fires while paused (sentence 0 becomes
`played`, no advance), then `skipTo(1)`. -/
def c5Events : List Ev :=
  [.loadStart "a", .segmentDone (some ["a", "b"]), .playEv,
   .synthDone 0 true true 5 "", .pauseEv, .htmlFinish 0 3, .skipToEv 1]

/-- C5 counterexample: before `skipTo(1)` the sentence at `currentIndex = 0`
has status `played` with cached audio; after `skipTo(1)` it is still
`played`, not `ready` as the claim requires. -/
theorem c5_skipTo_leaves_played_sentence :
    (run (initState false 3) (c5Events.take 6)).currentIndex = 0
    ∧ (run (initState false 3) (c5Events.take 6)).sentences.map (fun sn => sn.status)
        = [Status.played, Status.generating]
    ∧ (run (initState false 3) (c5Events.take 6)).sentences.map (fun sn => sn.hasBuffer)
        = [true, false]
    ∧ (run (initState false 3) c5Events).currentIndex = 1
    ∧ (run (initState false 3) c5Events).sentences.map (fun sn => sn.status)
        = [Status.played, Status.generating] := by
  decide

theorem skipToStopBackend_frame (s : QState) :
    skipToStopBackend s = { s with
      playbackGeneration := s.playbackGeneration + 1,
      currentlyPlayingIndex := -1,
      pollInterval := none,
      intervals := (skipToStopBackend s).intervals,
      pendings := dropFinishCbs s.pendings } := by
  unfold skipToStopBackend
  dsimp only
  split
  next id heq =>
    unfold clearItv
    split <;> rfl
  next heq => rw [heq]

/-- The non-dispatching behaviour of the tail of `skipTo`: when not
playing (or paused), it resets the previous sentence only when that
sentence's status is exactly `playing`, then sets `currentIndex`. -/
theorem skipToRest_spec (x : QState) (i : Int)
    (hnp : x.isPlaying = false ∨ x.isPaused = true) :
    (skipToRest i x).currentIndex = i
    ∧ ∀ j : Nat, ∀ sn : Sentence, x.sentences[j]? = some sn →
        (skipToRest i x).sentences[j]? = some (
          if (j : Int) = x.currentIndex ∧ sn.status = Status.playing
          then { sn with status := if sn.hasBuffer then Status.ready else Status.pending }
          else sn) := by
  have hnd : ∀ t : QState, t.isPlaying = x.isPlaying → t.isPaused = x.isPaused →
      ∀ A B : QState,
      (if t.isPlaying = true ∧ ¬t.isPaused = true then A else B) = B := by
    intro t hP hQ A B
    rw [if_neg]
    rintro ⟨hp, hq⟩
    rcases hnp with h | h
    · rw [hP, h] at hp; exact Bool.false_ne_true hp
    · rw [hQ, h] at hq; exact hq rfl
  unfold skipToRest
  dsimp only
  split
  case isTrue hb =>
    rcases heqp : x.sentences[x.currentIndex.toNat]? with _ | psn
    · exfalso
      have hjl : x.currentIndex.toNat < x.sentences.length := by omega
      rw [List.getElem?_eq_getElem hjl] at heqp
      exact Option.noConfusion heqp
    · dsimp only
      by_cases hst : psn.status = Status.playing
      · rw [if_pos hst, hnd _ rfl rfl]
        refine ⟨rfl, ?_⟩
        intro j sn hj
        dsimp only
        by_cases hjp : j = x.currentIndex.toNat
        · have hsome : some sn = some psn := by rw [← hj, hjp, heqp]
          have hsn : sn = psn := by injection hsome
          have hjl : j < x.sentences.length := (List.getElem?_eq_some.mp hj).1
          rw [hjp] at hjl ⊢
          have hcond : (↑x.currentIndex.toNat : Int) = x.currentIndex
              ∧ sn.status = Status.playing := ⟨by omega, by rw [hsn]; exact hst⟩
          rw [List.getElem?_set_eq_of_lt _ hjl, if_pos hcond, hsn]
        · have hcond : ¬((↑j : Int) = x.currentIndex ∧ sn.status = Status.playing) := by
            rintro ⟨hji, -⟩
            exact hjp (by omega)
          rw [List.getElem?_set_ne (fun hc => hjp hc.symm), hj, if_neg hcond]
      · rw [if_neg hst, hnd _ rfl rfl]
        refine ⟨rfl, ?_⟩
        intro j sn hj
        dsimp only
        by_cases hjp : j = x.currentIndex.toNat
        · have hsome : some sn = some psn := by rw [← hj, hjp, heqp]
          have hsn : sn = psn := by injection hsome
          have hcond : ¬((↑j : Int) = x.currentIndex ∧ sn.status = Status.playing) := by
            rintro ⟨-, hc⟩
            rw [hsn] at hc
            exact hst hc
          rw [hj, if_neg hcond]
        · have hcond : ¬((↑j : Int) = x.currentIndex ∧ sn.status = Status.playing) := by
            rintro ⟨hji, -⟩
            exact hjp (by omega)
          rw [hj, if_neg hcond]
  case isFalse hb =>
    rw [hnd _ rfl rfl]
    refine ⟨rfl, ?_⟩
    intro j sn hj
    dsimp only
    have hjl : j < x.sentences.length := (List.getElem?_eq_some.mp hj).1
    have hcond : ¬((↑j : Int) = x.currentIndex ∧ sn.status = Status.playing) := by
      rintro ⟨hji, -⟩
      exact hb ⟨by omega, by omega⟩
    rw [hj, if_neg hcond]

/-- C5 amended: for out-of-bounds indices `skipTo` is a no-op.  For an
in-bounds index (stated here for the non-dispatching case, i.e. not
`Playing` or else `Paused` — when playing and not paused, `skipTo`
additionally dispatches play-at-index under the new token, which can
mutate state further), `skipTo(i)` sets `currentIndex = i` and resets the
sentence at the previous `currentIndex` only when its status is exactly
`playing` (to `ready` with cached audio, else `pending`); a `played` (or
any other non-`playing`) previous sentence is left unchanged, as is every
other sentence. -/
theorem c5_skipTo_amended (s : QState) :
    (∀ i : Int, i < 0 ∨ (s.sentences.length : Int) ≤ i → skipTo i s = s)
    ∧ ∀ i : Int, 0 ≤ i → i < (s.sentences.length : Int) →
        s.isPlaying = false ∨ s.isPaused = true →
        (skipTo i s).currentIndex = i
        ∧ ∀ j : Nat, ∀ sn : Sentence, s.sentences[j]? = some sn →
            (skipTo i s).sentences[j]? = some (
              if (j : Int) = s.currentIndex ∧ sn.status = Status.playing
              then { sn with status := if sn.hasBuffer then Status.ready else Status.pending }
              else sn) := by
  constructor
  · intro i h
    unfold skipTo
    rw [if_pos h]
  · intro i h0 hlen hnp
    have hin : ¬(i < 0 ∨ (s.sentences.length : Int) ≤ i) := by omega
    unfold skipTo
    rw [if_neg hin]
    have hfr := skipToStopBackend_frame s
    have hspec := skipToRest_spec (skipToStopBackend s) i (by rw [hfr]; exact hnp)
    refine ⟨hspec.1, ?_⟩
    intro j sn hj
    have hj' : (skipToStopBackend s).sentences[j]? = some sn := by rw [hfr]; exact hj
    have := hspec.2 j sn hj'
    rw [this, hfr]

/-- Witness for the amended C5, discharged on the concrete C5 state (the
out-of-bounds no-op at index 5, and the in-bounds behaviour at index 1
from the paused state reached before the final `skipTo` of `c5Events`). -/
theorem c5_skipTo_amended_witness :
    (skipTo 5 (run (initState false 3) (c5Events.take 6))
        = run (initState false 3) (c5Events.take 6))
    ∧ (skipTo 1 (run (initState false 3) (c5Events.take 6))).currentIndex = 1
    ∧ (skipTo 1 (run (initState false 3) (c5Events.take 6))).sentences[0]?
        = some ((run (initState false 3) (c5Events.take 6)).sentences.get
            ⟨0, by decide⟩) := by
  have h1 := (c5_skipTo_amended (run (initState false 3) (c5Events.take 6))).1 5
    (by decide)
  have h2 := (c5_skipTo_amended (run (initState false 3) (c5Events.take 6))).2 1
    (by decide) (by decide) (by decide)
  refine ⟨h1, h2.1, ?_⟩
  have h3 := h2.2 0 ((run (initState false 3) (c5Events.take 6)).sentences.get
    ⟨0, by decide⟩) (by decide)
  rw [h3]
  decide

/-! ## Trigger-window lemmas for C6 and C7 -/

/-- A sentence index for which the `triggerPreGeneration` guard cannot
fire: out of range, not `pending`, or already in the in-flight set. -/
def blockedAt (s : QState) (j : Nat) : Prop :=
  ∀ sn : Sentence, s.sentences[j]? = some sn →
    sn.status ≠ Status.pending ∨ j ∈ s.generatingSet

theorem generateSentenceStart_blockedAt (i : Nat) (aw : Option (Nat × Option Nat))
    (s : QState) (j : Nat) (h : blockedAt s j) :
    blockedAt (generateSentenceStart i aw s).1 j := by
  unfold generateSentenceStart
  dsimp only
  split
  · exact h
  split
  · exact h
  split
  next heq => exact h
  next sn heq =>
    split
    next hstat => exact h
    next hstat =>
      intro sn' hsn'
      dsimp only at hsn'
      by_cases hji : j = i
      · subst hji
        rw [List.getElem?_set_eq_of_lt _ (List.getElem?_eq_some.mp heq).1] at hsn'
        injection hsn' with he
        subst he
        exact Or.inl (by simp)
      · rw [List.getElem?_set_ne (fun hc => hji hc.symm)] at hsn'
        rcases h sn' hsn' with hl | hr
        · exact Or.inl hl
        · exact Or.inr (List.mem_cons_of_mem _ hr)

theorem generateSentenceStart_blockedAt_self (i : Nat)
    (aw : Option (Nat × Option Nat)) (s : QState) :
    blockedAt (generateSentenceStart i aw s).1 i := by
  unfold generateSentenceStart
  dsimp only
  split
  next hge =>
    intro sn hsn
    have hsn' : s.sentences[i]? = some sn := hsn
    exact absurd (List.getElem?_eq_some.mp hsn').1 (by omega)
  split
  next hmem =>
    intro sn hsn
    exact Or.inr hmem
  split
  next heq =>
    intro sn hsn
    rw [heq] at hsn
    exact Option.noConfusion hsn
  next sn heq =>
    split
    next hstat =>
      intro sn' hsn'
      rw [heq] at hsn'
      injection hsn' with he
      subst he
      exact Or.inl hstat
    next hstat =>
      intro sn' hsn'
      dsimp only at hsn'
      rw [List.getElem?_set_eq_of_lt _ (List.getElem?_eq_some.mp heq).1] at hsn'
      injection hsn' with he
      subst he
      exact Or.inl (by simp)

theorem triggerLoop_blockedAt : ∀ (cnt i : Nat) (s : QState) (j : Nat),
    blockedAt s j → blockedAt (triggerLoop cnt i s).1 j
  | 0, _, _, _, h => h
  | cnt + 1, i, s, j, h => by
    unfold triggerLoop
    dsimp only
    apply triggerLoop_blockedAt cnt
    split
    next sn heq =>
      split
      next hcond => exact generateSentenceStart_blockedAt i none s j h
      next hcond => exact h
    next heq => exact h

theorem triggerLoop_blockedAt_window : ∀ (cnt i : Nat) (s : QState) (j : Nat),
    i ≤ j → j < i + cnt → blockedAt (triggerLoop cnt i s).1 j
  | 0, _, _, j, h1, h2 => absurd h2 (by omega)
  | cnt + 1, i, s, j, h1, h2 => by
    unfold triggerLoop
    dsimp only
    by_cases hji : j = i
    · subst hji
      apply triggerLoop_blockedAt cnt
      split
      next sn heq =>
        split
        next hcond => exact generateSentenceStart_blockedAt_self j none s
        next hcond =>
          intro sn' hsn'
          rw [heq] at hsn'
          injection hsn' with he
          subst he
          rcases not_and_or.mp hcond with hc | hc
          · exact Or.inl hc
          · exact Or.inr (not_not.mp hc)
      next heq =>
        intro sn' hsn'
        rw [heq] at hsn'
        exact Option.noConfusion hsn'
    · exact triggerLoop_blockedAt_window cnt (i + 1) _ j (by omega) (by omega)

theorem triggerLoop_of_blocked : ∀ (cnt i : Nat) (s : QState),
    (∀ j, i ≤ j → j < i + cnt → blockedAt s j) → triggerLoop cnt i s = (s, 0)
  | 0, _, _, _ => rfl
  | cnt + 1, i, s, h => by
    unfold triggerLoop
    have hgo : (match s.sentences[i]? with
        | some sn => if sn.status = Status.pending ∧ i ∉ s.generatingSet
                     then generateSentenceStart i none s else (s, false)
        | none => (s, false)) = (s, false) := by
      rcases heq : s.sentences[i]? with _ | sn
      · rfl
      · dsimp only
        rw [if_neg]
        rcases h i le_rfl (by omega) sn heq with hl | hr
        · exact fun hc => hl hc.1
        · exact fun hc => hc.2 hr
    rw [hgo]
    dsimp only
    rw [triggerLoop_of_blocked cnt (i + 1) s (fun j hj1 hj2 => h j (by omega) (by omega))]
    simp

theorem generateSentenceStart_sentences_length (i : Nat)
    (aw : Option (Nat × Option Nat)) (s : QState) :
    ((generateSentenceStart i aw s).1).sentences.length = s.sentences.length := by
  unfold generateSentenceStart
  dsimp only
  repeat' split
  all_goals simp

theorem generateSentenceStart_queueAhead (i : Nat)
    (aw : Option (Nat × Option Nat)) (s : QState) :
    ((generateSentenceStart i aw s).1).queueAhead = s.queueAhead := by
  unfold generateSentenceStart
  dsimp only
  repeat' split
  all_goals rfl

theorem triggerLoop_sentences_length : ∀ (cnt i : Nat) (s : QState),
    ((triggerLoop cnt i s).1).sentences.length = s.sentences.length
  | 0, _, _ => rfl
  | cnt + 1, i, s => by
    unfold triggerLoop
    dsimp only
    rw [triggerLoop_sentences_length cnt]
    split
    next sn heq =>
      split
      next hcond => exact generateSentenceStart_sentences_length ..
      next hcond => rfl
    next heq => rfl

theorem triggerLoop_queueAhead : ∀ (cnt i : Nat) (s : QState),
    ((triggerLoop cnt i s).1).queueAhead = s.queueAhead
  | 0, _, _ => rfl
  | cnt + 1, i, s => by
    unfold triggerLoop
    dsimp only
    rw [triggerLoop_queueAhead cnt]
    split
    next sn heq =>
      split
      next hcond => exact generateSentenceStart_queueAhead ..
      next hcond => rfl
    next heq => rfl

/-! ## Claim C6

`triggerPreGeneration` marks each scanned `pending` sentence as
`generating` and records it in the in-flight set synchronously (in
`generateSentence`'s prefix, before the `invoke` suspension), so an
immediately repeated call finds nothing `pending` in the same window and
issues no request.  Confirmed (in the strong form: the second call issues
zero requests and leaves the state unchanged). -/

/-- C6: calling `triggerPreGeneration i` immediately again issues no
synthesis request for any index and does not change the state, so two
calls in succession issue exactly the requests of the first call alone. -/
theorem c6_triggerPreGeneration_idempotent (s : QState) (i : Nat) :
    triggerPreGeneration i (triggerPreGeneration i s).1
      = ((triggerPreGeneration i s).1, 0) := by
  unfold triggerPreGeneration
  rw [triggerLoop_sentences_length, triggerLoop_queueAhead]
  exact triggerLoop_of_blocked _ i _
    (fun j hj1 hj2 => triggerLoop_blockedAt_window _ i s j hj1 hj2)

/-! ## Claim C7

The claim bounds the in-flight set by `lookahead + 1` at every instant
"including executions that interleave skipTo calls with in-flight
generations".  That is exactly where it fails: each `skipTo` to a distant
`pending` sentence makes the dispatched play chain call
`generateSentence` on that index while the earlier requests are still in
flight, so the set grows without bound.  Below, `play()` plus four
`skipTo`s yield five concurrent in-flight generations with the default
lookahead of 3.  What does hold is the per-call bound: one
`triggerPreGeneration` call adds at most `queueAhead + 1` entries. -/

/-- The execution exhibiting C7's failure: load 21 sentences, `play()`
(generation of sentence 0 starts), then `skipTo` 5, 10, 15, 20 while no
synthesis has completed. -/
def c7Events : List Ev :=
  [ .loadStart "a", .segmentDone (some (List.replicate 21 "a")), .playEv
  , .skipToEv 5, .skipToEv 10, .skipToEv 15, .skipToEv 20 ]

/-- C7 counterexample: with the default lookahead 3, the interleaving above
leaves five distinct indices in the in-flight generation set —
exceeding the claimed bound `lookahead + 1 = 4`. -/
theorem c7_generatingSet_exceeds_bound :
    (run (initState false 3) c7Events).queueAhead = 3
    ∧ (run (initState false 3) c7Events).generatingSet = [20, 15, 10, 5, 0]
    ∧ (run (initState false 3) c7Events).generatingSet.length = 5 := by
  decide

/-- C7 amended: the `lookahead + 1` bound holds per call, not globally: a
single `triggerPreGeneration` call adds at most `queueAhead + 1` entries to
the in-flight set. -/
theorem c7_triggerPreGeneration_bounded (s : QState) (i : Nat) :
    ((triggerPreGeneration i s).1).generatingSet.length
      ≤ s.generatingSet.length + (s.queueAhead + 1) := by
  have hloop : ∀ (cnt j : Nat) (x : QState),
      ((triggerLoop cnt j x).1).generatingSet.length
        ≤ x.generatingSet.length + cnt := by
    intro cnt
    induction cnt with
    | zero => intro j x; exact Nat.le_refl _
    | succ n ih =>
      intro j x
      unfold triggerLoop
      dsimp only
      have hgo : ∀ y : QState × Bool,
          (y = match x.sentences[j]? with
            | some sn => if sn.status = Status.pending ∧ j ∉ x.generatingSet
                         then generateSentenceStart j none x else (x, false)
            | none => (x, false)) →
          y.1.generatingSet.length ≤ x.generatingSet.length + 1 := by
        intro y hy
        subst hy
        split
        next sn heq =>
          split
          next hcond =>
            unfold generateSentenceStart
            dsimp only
            repeat' split
            all_goals simp
          next hcond => exact Nat.le_succ _
        next heq => exact Nat.le_succ _
      calc ((triggerLoop n (j + 1) _).1).generatingSet.length
          ≤ _ + n := ih (j + 1) _
        _ ≤ x.generatingSet.length + 1 + n := Nat.add_le_add_right (hgo _ rfl) n
        _ = x.generatingSet.length + (n + 1) := by omega
  have hcnt : min (i + s.queueAhead + 1) s.sentences.length - i ≤ s.queueAhead + 1 := by
    have := Nat.min_le_left (i + s.queueAhead + 1) s.sentences.length
    omega
  unfold triggerPreGeneration
  calc ((triggerLoop _ i s).1).generatingSet.length
      ≤ s.generatingSet.length + (min (i + s.queueAhead + 1) s.sentences.length - i) :=
        hloop _ i s
    _ ≤ s.generatingSet.length + (s.queueAhead + 1) := by omega

/-! ## Claim C8

The claim says a segmentation failure is surfaced to the caller of `load`
and leaves the state with an empty sentence sequence.  Neither holds: the
source wraps the segmenter call in `try/catch`, logs the error and merely
clears `isLoading` — the returned promise resolves normally — and the
previous sentence list is left in place (only its statuses were reset by
the `stopPlayback` that `loadText` performs up front). -/

/-- The execution exhibiting C8's failure: a successful load of two
sentences, then a reload whose segmentation throws. -/
def c8Events : List Ev :=
  [.loadStart "a", .segmentDone (some ["a", "b"]), .loadStart "c", .segmentDone none]

/-- C8 counterexample: after the failing reload the state still holds the
two sentences of the previous load — not an empty sequence as claimed. -/
theorem c8_failed_segmentation_keeps_sentences :
    (run (initState false 3) c8Events).sentences.length = 2
    ∧ (run (initState false 3) c8Events).sentences ≠ []
    ∧ (run (initState false 3) c8Events).isLoading = false := by
  decide

/-- A list of pendings ending in `loadWait` always yields a match for the
segmentation continuation. -/
theorem removeFirst_loadWait_append : ∀ l : List Pending,
    ∃ rest : List Pending,
      removeFirst (fun p => match p with | .loadWait => some () | _ => none)
        (l ++ [Pending.loadWait]) = some ((), rest)
  | [] => ⟨[], rfl⟩
  | p :: l => by
    obtain ⟨rest, hrest⟩ := removeFirst_loadWait_append l
    cases p <;> simp [removeFirst, hrest]

theorem stopPlayback_frame (s : QState) :
    stopPlayback s = { s with
      playbackGeneration := s.playbackGeneration + 1,
      currentlyPlayingIndex := -1,
      pollInterval := none,
      intervals := (stopPlayback s).intervals,
      isPlaying := false, isPaused := false, currentIndex := -1,
      sentences := s.sentences.map resetSentence,
      pendings := dropFinishCbs s.pendings } := by
  unfold stopPlayback
  dsimp only
  split
  next id heq =>
    unfold clearItv
    split <;> rfl
  next heq => rw [heq]

/-- C8 amended: a segmentation failure during `loadText` is caught and
logged inside `loadText` (nothing is surfaced to the caller — the promise
resolves normally); `isLoading` is cleared and the previous sentence
sequence is kept, with only the status resets that `loadText`'s initial
`stopPlayback` performs (`playing`/`played` back to `ready`/`pending`). -/
theorem c8_segmentation_failure_amended (s : QState) (t : String)
    (h : trimEmpty t = false) :
    (run s [Ev.loadStart t, Ev.segmentDone none]).isLoading = false
    ∧ (run s [Ev.loadStart t, Ev.segmentDone none]).sentences
        = s.sentences.map resetSentence
    ∧ (run s [Ev.loadStart t, Ev.segmentDone none]).sentences.length
        = s.sentences.length := by
  have hrun : run s [Ev.loadStart t, Ev.segmentDone none]
      = step (step s (Ev.loadStart t)) (Ev.segmentDone none) := rfl
  rw [hrun]
  have hload : step s (Ev.loadStart t) =
      (let s2 := stopPlayback { s with isLoading := true }
       { s2 with generatingSet := [],
                 playbackGeneration := s2.playbackGeneration + 1,
                 pendings := s2.pendings ++ [Pending.loadWait] }) := by
    simp only [step]
    rw [if_neg (by simp [h])]
  rw [hload]
  rw [stopPlayback_frame]
  dsimp only
  obtain ⟨rest, hrest⟩ := removeFirst_loadWait_append (dropFinishCbs s.pendings)
  simp only [step]
  rw [hrest]
  dsimp only
  exact ⟨rfl, rfl, by simp⟩

/-- Witness for the amended C8 on a concrete two-sentence state. -/
theorem c8_segmentation_failure_amended_witness :
    (run (run (initState false 3) [Ev.loadStart "a", Ev.segmentDone (some ["a", "b"])])
        [Ev.loadStart "c", Ev.segmentDone none]).isLoading = false
    ∧ (run (run (initState false 3) [Ev.loadStart "a", Ev.segmentDone (some ["a", "b"])])
        [Ev.loadStart "c", Ev.segmentDone none]).sentences
        = (run (initState false 3)
            [Ev.loadStart "a", Ev.segmentDone (some ["a", "b"])]).sentences.map resetSentence
    ∧ (run (run (initState false 3) [Ev.loadStart "a", Ev.segmentDone (some ["a", "b"])])
        [Ev.loadStart "c", Ev.segmentDone none]).sentences.length
        = (run (initState false 3)
            [Ev.loadStart "a", Ev.segmentDone (some ["a", "b"])]).sentences.length :=
  c8_segmentation_failure_amended _ "c" (by decide)

/-! ## Claim C10

`pause()` sets `isPaused` unconditionally, and a subsequent `play()` with a
non-empty queue takes the resume branch: `isPaused` is cleared, only the
backend resume path runs (plus, on Android, a restart of the poll
interval), the token is not incremented and play-at-index is not
dispatched, so the sentence list — and hence every status — is unchanged
and nothing enters `playing`.  Confirmed. -/

theorem pause_frame (s : QState) :
    pause s = { s with isPaused := true, intervals := (pause s).intervals } := by
  unfold pause
  dsimp only
  split
  · split
    next id heq =>
      unfold clearItv
      split <;> rfl
    next heq => rfl
  · rfl

theorem play_resume (s : QState) (hne : ¬s.sentences.length = 0)
    (hp : s.isPaused = true) :
    play s = (let s1 := { s with isPaused := false }
              if s1.isAndroid then startMusicStatePolling s1.playbackGeneration s1
              else s1) := by
  unfold play
  rw [if_neg hne, if_pos hp]

/-- C10: after `pause()` in a stopped state, `isPaused` is set; a following
`play()` on a non-empty queue leaves the token, the playback flag and the
entire sentence list (hence every status) unchanged and clears `isPaused` —
no sentence enters `playing`. -/
theorem c10_pause_then_play_resume (s : QState)
    (h1 : s.isPlaying = false) (h2 : s.sentences ≠ []) :
    (pause s).isPaused = true
    ∧ (play (pause s)).playbackGeneration = s.playbackGeneration
    ∧ (play (pause s)).isPaused = false
    ∧ (play (pause s)).isPlaying = false
    ∧ (play (pause s)).sentences = s.sentences := by
  have hfr := pause_frame s
  have hp : (pause s).isPaused = true := by rw [hfr]
  have hlen : ¬(pause s).sentences.length = 0 := by
    rw [hfr]
    simpa using fun hc => h2 (List.length_eq_zero.mp hc)
  have hres := play_resume (pause s) hlen hp
  have hfields : (play (pause s)).playbackGeneration = s.playbackGeneration
      ∧ (play (pause s)).isPaused = false
      ∧ (play (pause s)).isPlaying = s.isPlaying
      ∧ (play (pause s)).sentences = s.sentences := by
    rw [hres, hfr]
    dsimp only
    split
    · rw [startMusicStatePolling_frame]
      exact ⟨rfl, rfl, rfl, rfl⟩
    · exact ⟨rfl, rfl, rfl, rfl⟩
  exact ⟨hp, hfields.1, hfields.2.1, h1 ▸ hfields.2.2.1, hfields.2.2.2⟩

/-- Witness for C10 on a concrete stopped Android state with one loaded
sentence. -/
theorem c10_pause_then_play_resume_witness :
    (pause (run (initState true 3) [Ev.loadStart "a", Ev.segmentDone (some ["a"])])).isPaused
      = true
    ∧ (play (pause (run (initState true 3)
        [Ev.loadStart "a", Ev.segmentDone (some ["a"])]))).playbackGeneration
      = (run (initState true 3) [Ev.loadStart "a", Ev.segmentDone (some ["a"])]).playbackGeneration
    ∧ (play (pause (run (initState true 3)
        [Ev.loadStart "a", Ev.segmentDone (some ["a"])]))).isPaused = false
    ∧ (play (pause (run (initState true 3)
        [Ev.loadStart "a", Ev.segmentDone (some ["a"])]))).isPlaying = false
    ∧ (play (pause (run (initState true 3)
        [Ev.loadStart "a", Ev.segmentDone (some ["a"])]))).sentences
      = (run (initState true 3) [Ev.loadStart "a", Ev.segmentDone (some ["a"])]).sentences :=
  c10_pause_then_play_resume _ (by decide) (by decide)

end SupertonicQueue
